import Mathlib

/-!
# libsframe `config.h`

A shallow embedding of
`distro-dev/build/build-toolchain/x86_64/binutils-build/libsframe/config.h`.

The header is data, so the embedding keeps its text verbatim (`config_h`, one
string per source line) and derives everything else from that text:

* `scan` reads the lines the way a C preprocessor sees them (block comments,
  `#define`, `#undef`, `#ifndef`, `#endif`), keeping apart the commented-out
  `/* #undef NAME */` markers that `configure` leaves for absent capabilities;
* `record` lists the configuration entries in file order;
* `exec` is the effect of including the header on a macro environment.
-/

namespace ConfigH

/-- The text of `config.h`: line `k` of the file is element `k - 1`. -/
def config_h : List String := [
  "/* config.h.  Generated from config.h.in by configure.  */",
  "/* config.h.in.  Generated from configure.ac by autoheader.  */",
  "",
  "/* Define to 1 if you have the <byteswap.h> header file. */",
  "/* #undef HAVE_BYTESWAP_H */",
  "",
  "/* Define to 1 if you have the declaration of `bswap_16', and to 0 if you",
  "   don't. */",
  "#define HAVE_DECL_BSWAP_16 0",
  "",
  "/* Define to 1 if you have the declaration of `bswap_32', and to 0 if you",
  "   don't. */",
  "#define HAVE_DECL_BSWAP_32 0",
  "",
  "/* Define to 1 if you have the declaration of `bswap_64', and to 0 if you",
  "   don't. */",
  "#define HAVE_DECL_BSWAP_64 0",
  "",
  "/* Define to 1 if you have the <dlfcn.h> header file. */",
  "#define HAVE_DLFCN_H 1",
  "",
  "/* Define to 1 if you have the <endian.h> header file. */",
  "/* #undef HAVE_ENDIAN_H */",
  "",
  "/* Define to 1 if you have the `getpagesize' function. */",
  "#define HAVE_GETPAGESIZE 1",
  "",
  "/* Define to 1 if you have the <inttypes.h> header file. */",
  "#define HAVE_INTTYPES_H 1",
  "",
  "/* Define to 1 if you have the <memory.h> header file. */",
  "#define HAVE_MEMORY_H 1",
  "",
  "/* Define to 1 if you have a working `mmap' system call. */",
  "#define HAVE_MMAP 1",
  "",
  "/* Define to 1 if you have the <stdint.h> header file. */",
  "#define HAVE_STDINT_H 1",
  "",
  "/* Define to 1 if you have the <stdlib.h> header file. */",
  "#define HAVE_STDLIB_H 1",
  "",
  "/* Define to 1 if you have the <strings.h> header file. */",
  "#define HAVE_STRINGS_H 1",
  "",
  "/* Define to 1 if you have the <string.h> header file. */",
  "#define HAVE_STRING_H 1",
  "",
  "/* Define to 1 if you have the <sys/param.h> header file. */",
  "#define HAVE_SYS_PARAM_H 1",
  "",
  "/* Define to 1 if you have the <sys/stat.h> header file. */",
  "#define HAVE_SYS_STAT_H 1",
  "",
  "/* Define to 1 if you have the <sys/types.h> header file. */",
  "#define HAVE_SYS_TYPES_H 1",
  "",
  "/* Define to 1 if you have the <unistd.h> header file. */",
  "#define HAVE_UNISTD_H 1",
  "",
  "/* Define to the sub-directory in which libtool stores uninstalled libraries.",
  "   */",
  "#define LT_OBJDIR \".libs/\"",
  "",
  "/* Name of package */",
  "#define PACKAGE \"libsframe\"",
  "",
  "/* Define to the address where bug reports for this package should be sent. */",
  "#define PACKAGE_BUGREPORT \"\"",
  "",
  "/* Define to the full name of this package. */",
  "#define PACKAGE_NAME \"libsframe\"",
  "",
  "/* Define to the full name and version of this package. */",
  "#define PACKAGE_STRING \"libsframe BFD_VERSION\"",
  "",
  "/* Define to the one symbol short name of this package. */",
  "#define PACKAGE_TARNAME \"libsframe\"",
  "",
  "/* Define to the home page for this package. */",
  "#define PACKAGE_URL \"\"",
  "",
  "/* Define to the version of this package. */",
  "#define PACKAGE_VERSION \"BFD_VERSION\"",
  "",
  "/* Define to 1 if you have the ANSI C header files. */",
  "#define STDC_HEADERS 1",
  "",
  "/* Enable extensions on AIX 3, Interix.  */",
  "#ifndef _ALL_SOURCE",
  "# define _ALL_SOURCE 1",
  "#endif",
  "/* Enable GNU extensions on systems that have them.  */",
  "#ifndef _GNU_SOURCE",
  "# define _GNU_SOURCE 1",
  "#endif",
  "/* Enable threading extensions on Solaris.  */",
  "#ifndef _POSIX_PTHREAD_SEMANTICS",
  "# define _POSIX_PTHREAD_SEMANTICS 1",
  "#endif",
  "/* Enable extensions on HP NonStop.  */",
  "#ifndef _TANDEM_SOURCE",
  "# define _TANDEM_SOURCE 1",
  "#endif",
  "/* Enable general extensions on Solaris.  */",
  "#ifndef __EXTENSIONS__",
  "# define __EXTENSIONS__ 1",
  "#endif",
  "",
  "",
  "/* Version number of package */",
  "#define VERSION \"BFD_VERSION\"",
  "",
  "/* Enable large inode numbers on Mac OS X 10.5.  */",
  "#ifndef _DARWIN_USE_64_BIT_INODE",
  "# define _DARWIN_USE_64_BIT_INODE 1",
  "#endif",
  "",
  "/* Number of bits in a file offset, on hosts where this is settable. */",
  "/* #undef _FILE_OFFSET_BITS */",
  "",
  "/* Define for large files, on AIX-style hosts. */",
  "/* #undef _LARGE_FILES */",
  "",
  "/* Define to 1 if on MINIX. */",
  "/* #undef _MINIX */",
  "",
  "/* Define to 2 if the system does not provide POSIX.1 features except with",
  "   this defined. */",
  "/* #undef _POSIX_1_SOURCE */",
  "",
  "/* Define to 1 if you need to in order for `stat' and other things to work. */",
  "/* #undef _POSIX_SOURCE */"
]

/-! ## Reading the lines -/

/-- What one line of the header is to the preprocessor. -/
inductive Line where
  /-- an empty line -/
  | blank
  /-- a line of a block comment that carries no directive -/
  | comment
  /-- the one-line comment `/* #undef NAME */` -/
  | undefMarker (name : String)
  /-- the directive `#define NAME body` (blanks after `#` allowed) -/
  | define (name body : String)
  /-- the directive `#undef NAME` -/
  | undef (name : String)
  /-- the directive `#ifndef NAME` -/
  | ifndef (name : String)
  /-- the directive `#endif` -/
  | endif
  /-- anything else -/
  | other (text : String)
  deriving DecidableEq

/-- Space or tab. -/
def isBlank (c : Char) : Bool := c = ' ' || c = Char.ofNat 9

/-- A character of a C identifier: a letter, a digit or the underscore. -/
def isIdent (c : Char) : Bool :=
  (65 ≤ c.toNat && c.toNat ≤ 90) || (97 ≤ c.toNat && c.toNat ≤ 122) ||
    (48 ≤ c.toNat && c.toNat ≤ 57) || c = '_'

/-- Drop leading blanks. -/
def dropBlanks (cs : List Char) : List Char := cs.dropWhile isBlank

/-- The text after the first comment terminator `*/`, when there is one. -/
def afterClose : List Char → Option (List Char)
  | [] => none
  | c :: cs => if c = '*' ∧ cs.head? = some '/' then some cs.tail else afterClose cs

/-- Whether the text is empty or starts with a blank. -/
def endsName : List Char → Bool
  | [] => true
  | c :: _ => isBlank c

/-- The directive after a `#`: keyword, macro name, and for `#define` the
replacement text up to the end of the line. A `#define` is read when it
defines an object-like macro: a name, then nothing or a blank. -/
def directive (cs : List Char) : Line :=
  let cs := dropBlanks cs
  let kw := String.mk (cs.takeWhile isIdent)
  let rest := dropBlanks (cs.dropWhile isIdent)
  let name := String.mk (rest.takeWhile isIdent)
  let after := rest.dropWhile isIdent
  let body := dropBlanks after
  if name = "" then (if kw = "endif" ∧ rest = [] then .endif else .other (String.mk cs))
  else if kw = "define" then
    (if endsName after = true then .define name (String.mk body) else .other (String.mk cs))
  else if kw = "undef" then (if body = [] then .undef name else .other (String.mk cs))
  else if kw = "ifndef" then (if body = [] then .ifndef name else .other (String.mk cs))
  else .other (String.mk cs)

/-- A line that opens a block comment, given the text after `/*`: the marker
`/* #undef NAME */` when it is exactly that, a plain comment line otherwise. -/
def commentLine (cs : List Char) : Line :=
  match dropBlanks cs with
  | '#' :: ds =>
    let kw := String.mk (ds.takeWhile isIdent)
    let rest := dropBlanks (ds.dropWhile isIdent)
    let name := String.mk (rest.takeWhile isIdent)
    let tail := dropBlanks (rest.dropWhile isIdent)
    if kw = "undef" ∧ name ≠ "" ∧ tail = ['*', '/'] then .undefMarker name else .comment
  | _ => .comment

/-- One line, given whether a block comment is open when the line starts;
returns the line and whether a block comment is open when it ends. Text that
follows the end of a comment on its line is not read: such a line is `other`. -/
def classify (inComment : Bool) (l : String) : Line × Bool :=
  if inComment then
    match afterClose l.toList with
    | none => (.comment, true)
    | some rest => if dropBlanks rest = [] then (.comment, false) else (.other l, false)
  else
    match dropBlanks l.toList with
    | [] => (.blank, false)
    | '/' :: '*' :: cs =>
      match afterClose cs with
      | none => (.comment, true)
      | some rest => if dropBlanks rest = [] then (commentLine cs, false) else (.other l, false)
    | '#' :: cs => (directive cs, false)
    | _ => (.other l, false)

/-- All lines in file order. -/
def scan : Bool → List String → List Line
  | _, [] => []
  | b, l :: ls => (classify b l).1 :: scan (classify b l).2 ls

/-- Whether a block comment is still open after the last line. -/
def openAtEnd : Bool → List String → Bool
  | b, [] => b
  | b, l :: ls => openAtEnd (classify b l).2 ls

/-! ## The configuration record -/

/-- An entry of the record that the header holds. -/
inductive Entry where
  /-- an unconditional `#define NAME body` -/
  | define (name body : String)
  /-- a `#define NAME body` inside the group of `#ifndef guard` -/
  | guarded (guard name body : String)
  /-- a commented-out `/* #undef NAME */` -/
  | absent (name : String)
  deriving DecidableEq

/-- The capability an entry is about. -/
def Entry.name : Entry → String
  | .define n _ => n
  | .guarded _ n _ => n
  | .absent n => n

/-- The entries of the lines `ls`, each with the number of its line, where
`k` is the number of the first line and `gs` the guards of the enclosing
`#ifndef` groups, innermost first. -/
def entriesFrom : List String → Nat → List Line → List (Nat × Entry)
  | _, _, [] => []
  | gs, k, .define n v :: ls =>
    (k, match gs with
        | [] => .define n v
        | g :: _ => .guarded g n v) :: entriesFrom gs (k + 1) ls
  | gs, k, .undefMarker n :: ls => (k, .absent n) :: entriesFrom gs (k + 1) ls
  | gs, k, .ifndef g :: ls => entriesFrom (g :: gs) (k + 1) ls
  | gs, k, .endif :: ls => entriesFrom gs.tail (k + 1) ls
  | gs, k, _ :: ls => entriesFrom gs (k + 1) ls

/-- The entries of `config.h` with their line numbers, in file order. -/
def located : List (Nat × Entry) := entriesFrom [] 1 (scan false config_h)

/-- The entries of `config.h` in file order. -/
def record : List Entry := located.map Prod.snd

/-- The names of the entries in file order. -/
def names : List String := record.map Entry.name

/-- Whether the text `p` occurs in the text `cs`. -/
def occursIn (p : List Char) : List Char → Bool
  | [] => p.isEmpty
  | c :: cs => p.isPrefixOf (c :: cs) || occursIn p cs

/-- The lines of the header whose text mentions `name`. -/
def linesMentioning (name : String) : List String :=
  config_h.filter (fun l => occursIn name.toList l.toList)

/-- Whether `p` is a prefix of `s`. -/
def startsWith (p s : String) : Bool := p.toList.isPrefixOf s.toList

/-- A declaration capability: the name starts with `HAVE_DECL_`. -/
def isDecl (n : String) : Bool := startsWith "HAVE_DECL_" n

/-- A presence capability: the name starts with `HAVE_` but not with `HAVE_DECL_`. -/
def isPresence (n : String) : Bool := startsWith "HAVE_" n && !isDecl n

/-- A replacement text of the string form `"..."`. -/
def isStringLit (v : String) : Bool :=
  2 ≤ v.toList.length && v.toList.head? = some (Char.ofNat 34) &&
    v.toList.getLast? = some (Char.ofNat 34)

/-- The text between the quotes of a string-form replacement text. -/
def unquote (v : String) : Option String :=
  if isStringLit v then some (String.mk (v.toList.tail.dropLast)) else none

/-- The replacement text that the record gives a name, when it defines it. -/
def bodyOf (n : String) : List Entry → Option String
  | [] => none
  | .define m v :: es => if m = n then some v else bodyOf n es
  | .guarded _ m v :: es => if m = n then some v else bodyOf n es
  | .absent _ :: es => bodyOf n es

/-- The string that the record defines a name to, without its quotes. -/
def stringOf (n : String) : Option String := (bodyOf n record).bind unquote

/-- The package metadata names. -/
def metadataNames : List String :=
  ["PACKAGE", "PACKAGE_BUGREPORT", "PACKAGE_NAME", "PACKAGE_STRING", "PACKAGE_TARNAME",
   "PACKAGE_URL", "PACKAGE_VERSION", "VERSION"]

/-- A package metadata entry. -/
def isMetadata (e : Entry) : Bool := e.name ∈ metadataNames

/-- The bytes of a string (its UTF-8 encoding). -/
def bytes (s : String) : List Nat := s.toUTF8.toList.map UInt8.toNat

/-- Strict byte-wise lexicographic order, as `strcmp` gives it. -/
def bytesLt : List Nat → List Nat → Bool
  | [], [] => false
  | [], _ :: _ => true
  | _ :: _, [] => false
  | a :: as, b :: bs => a < b || (a = b && bytesLt as bs)

/-- Name `a` sorts strictly before name `b`. -/
def nameLt (a b : String) : Prop := bytesLt (bytes a) (bytes b) = true

instance : DecidableRel nameLt :=
  fun a b => inferInstanceAs (Decidable (bytesLt (bytes a) (bytes b) = true))

/-! ## Including the header -/

/-- A macro environment: the replacement text of each defined macro. -/
abbrev Env := String → Option String

/-- The preprocessor's state while it reads the header: the macros, and for
each open conditional group whether its condition held, innermost first. -/
structure PP where
  env : Env
  conds : List Bool

/-- Lines are processed only when every enclosing condition held. -/
def PP.live (s : PP) : Bool := s.conds.all id

/-- The effect of one line. -/
def step (s : PP) : Line → PP
  | .define n v => { s with env := fun m => if s.live = true ∧ m = n then some v else s.env m }
  | .undef n => { s with env := fun m => if s.live = true ∧ m = n then none else s.env m }
  | .ifndef n => { s with conds := (s.env n).isNone :: s.conds }
  | .endif => { s with conds := s.conds.tail }
  | _ => s

/-- The macro environment after the lines `ls` are processed from `env`. -/
def exec (ls : List Line) (env : Env) : Env := (ls.foldl step ⟨env, []⟩).env

/-- The macro environment after `#include "config.h"`. -/
def included (env : Env) : Env := exec (scan false config_h) env

/-- The system-extension macros that the header defines under an `#ifndef` guard. -/
def guardedMacros : List String :=
  ["_ALL_SOURCE", "_GNU_SOURCE", "_POSIX_PTHREAD_SEMANTICS", "_TANDEM_SOURCE",
   "__EXTENSIONS__", "_DARWIN_USE_64_BIT_INODE"]

/-- An active `#undef` directive. -/
def Line.isUndef : Line → Bool
  | .undef _ => true
  | _ => false

/-- A directive that sets or removes the macro `m`. -/
def Line.touches (m : String) : Line → Bool
  | .define n _ => n = m
  | .undef n => n = m
  | _ => false

/-- The number of open conditional groups after the lines, from `d` open ones. -/
def depth : Nat → List Line → Nat
  | d, [] => d
  | d, .ifndef _ :: ls => depth (d + 1) ls
  | d, .endif :: ls => depth (d - 1) ls
  | d, _ :: ls => depth d ls

/-- The name that a line gives an entry for: the macro of a `#define`, or of
a commented-out `#undef`. -/
def Line.emits : Line → Option String
  | .define n _ => some n
  | .undefMarker n => some n
  | _ => none

/-- A line that is none of the forms the header is made of. -/
def Line.isOther : Line → Bool
  | .other _ => true
  | _ => false

/-- An unconditional `#define` whose replacement text is of the string form. -/
def isStringDefine : Entry → Bool
  | .define _ v => isStringLit v
  | _ => false

/-- The `PACKAGE...` metadata entries, that is all of the metadata but `VERSION`. -/
def isPackageMeta (e : Entry) : Bool := isMetadata e && e.name ≠ "VERSION"

/-- Whether entry number `i` (from 0) exists and satisfies `p`. -/
def holdsAt (p : Entry → Bool) (l : List Entry) (i : Nat) : Bool :=
  match l[i]? with
  | some e => p e
  | none => false

/-- The entries that satisfy `p` are consecutive: no entry that fails `p`
stands between two that satisfy it. -/
def consecutive (p : Entry → Bool) (l : List Entry) : Prop :=
  ∀ i j k : Nat, i < j → j < k → holdsAt p l i = true → holdsAt p l k = true →
    holdsAt p l j = true

/-- Lines 89 to 108 of the header: the first five system-extension groups. -/
def inSysExtBlock (k : Nat) : Bool := 89 ≤ k && k ≤ 108

/-- The names of the five system-extension entries of lines 89 to 108. -/
def sysExtNames : List String :=
  ["_ALL_SOURCE", "_GNU_SOURCE", "_POSIX_PTHREAD_SEMANTICS", "_TANDEM_SOURCE",
   "__EXTENSIONS__"]

/-- The environment with no macro defined. -/
def emptyEnv : Env := fun _ => none

/-- An environment in which the includer has set `_GNU_SOURCE` to `700` and
nothing else. -/
def gnuEnv : Env := fun n => if n = "_GNU_SOURCE" then some "700" else none

/-! ## The header as read -/

/-- Every line of the header is a blank line, a comment line, a commented-out
`#undef`, or one of the directives `#define`, `#ifndef`, `#endif`; no comment
and no conditional group is left open at the end. -/
theorem scan_understood :
    (scan false config_h).length = 133 ∧ (∀ l ∈ scan false config_h, l.isOther = false) ∧
    openAtEnd false config_h = false ∧ depth 0 (scan false config_h) = 0 := by
  decide!

/-- The record, spelled out: each entry with the number of its line. -/
theorem located_config_h :
    located =
      [(5, .absent "HAVE_BYTESWAP_H"), (9, .define "HAVE_DECL_BSWAP_16" "0"),
       (13, .define "HAVE_DECL_BSWAP_32" "0"), (17, .define "HAVE_DECL_BSWAP_64" "0"),
       (20, .define "HAVE_DLFCN_H" "1"), (23, .absent "HAVE_ENDIAN_H"),
       (26, .define "HAVE_GETPAGESIZE" "1"), (29, .define "HAVE_INTTYPES_H" "1"),
       (32, .define "HAVE_MEMORY_H" "1"), (35, .define "HAVE_MMAP" "1"),
       (38, .define "HAVE_STDINT_H" "1"), (41, .define "HAVE_STDLIB_H" "1"),
       (44, .define "HAVE_STRINGS_H" "1"), (47, .define "HAVE_STRING_H" "1"),
       (50, .define "HAVE_SYS_PARAM_H" "1"), (53, .define "HAVE_SYS_STAT_H" "1"),
       (56, .define "HAVE_SYS_TYPES_H" "1"), (59, .define "HAVE_UNISTD_H" "1"),
       (63, .define "LT_OBJDIR" "\".libs/\""), (66, .define "PACKAGE" "\"libsframe\""),
       (69, .define "PACKAGE_BUGREPORT" "\"\""), (72, .define "PACKAGE_NAME" "\"libsframe\""),
       (75, .define "PACKAGE_STRING" "\"libsframe BFD_VERSION\""),
       (78, .define "PACKAGE_TARNAME" "\"libsframe\""), (81, .define "PACKAGE_URL" "\"\""),
       (84, .define "PACKAGE_VERSION" "\"BFD_VERSION\""), (87, .define "STDC_HEADERS" "1"),
       (91, .guarded "_ALL_SOURCE" "_ALL_SOURCE" "1"),
       (95, .guarded "_GNU_SOURCE" "_GNU_SOURCE" "1"),
       (99, .guarded "_POSIX_PTHREAD_SEMANTICS" "_POSIX_PTHREAD_SEMANTICS" "1"),
       (103, .guarded "_TANDEM_SOURCE" "_TANDEM_SOURCE" "1"),
       (107, .guarded "__EXTENSIONS__" "__EXTENSIONS__" "1"),
       (112, .define "VERSION" "\"BFD_VERSION\""),
       (116, .guarded "_DARWIN_USE_64_BIT_INODE" "_DARWIN_USE_64_BIT_INODE" "1"),
       (120, .absent "_FILE_OFFSET_BITS"), (123, .absent "_LARGE_FILES"),
       (126, .absent "_MINIX"), (130, .absent "_POSIX_1_SOURCE"),
       (133, .absent "_POSIX_SOURCE")] := by
  decide!

/-- The record has 39 entries. -/
theorem record_length : record.length = 39 := by
  decide!

/-! ## Generalities on the preprocessor -/

/-- A line that does not set or remove `m` leaves `m` as it is. -/
theorem step_untouched (s : PP) (l : Line) (m : String) (hl : l.touches m = false) :
    (step s l).env m = s.env m := by
  cases l <;> simp_all [Line.touches, step] <;> intro _ h <;> exact absurd h.symm hl

/-- Lines that do not set or remove `m` leave `m` as it is. -/
theorem foldl_untouched (ls : List Line) (m : String) (hls : ∀ l ∈ ls, l.touches m = false)
    (s : PP) : (ls.foldl step s).env m = s.env m := by
  induction ls generalizing s with
  | nil => rfl
  | cons l ls ih =>
    rw [List.foldl_cons, ih (fun x hx => hls x (List.mem_cons_of_mem _ hx)),
      step_untouched s l m (hls l (List.mem_cons_self _ _))]

/-- The number of open conditional groups depends on the lines only. -/
theorem foldl_depth (ls : List Line) (s : PP) :
    (ls.foldl step s).conds.length = depth s.conds.length ls := by
  induction ls generalizing s with
  | nil => rfl
  | cons l ls ih =>
    rw [List.foldl_cons, ih]
    cases l <;> simp [step, depth]

/-- Only an active `#undef` can leave a defined macro undefined. -/
theorem step_defined (s : PP) (l : Line) (hl : l.isUndef = false) (m : String)
    (h : s.env m ≠ none) : (step s l).env m ≠ none := by
  cases l <;> simp_all [Line.isUndef, step]
  split <;> simp_all

/-- Without an active `#undef`, what was defined stays defined. -/
theorem foldl_defined (ls : List Line) (hls : ∀ l ∈ ls, l.isUndef = false) (m : String)
    (s : PP) (h : s.env m ≠ none) : (ls.foldl step s).env m ≠ none := by
  induction ls generalizing s with
  | nil => exact h
  | cons l ls ih =>
    rw [List.foldl_cons]
    exact ih (fun x hx => hls x (List.mem_cons_of_mem _ hx)) _
      (step_defined s l (hls l (List.mem_cons_self _ _)) m h)

/-- Outside every conditional group, `#ifndef m` / `#define m v` / `#endif`
defines `m` to `v` exactly when `m` was not defined. -/
theorem guard_block (s : PP) (hs : s.conds = []) (m v : String) :
    ([Line.ifndef m, Line.define m v, Line.endif].foldl step s).env m
      = some ((s.env m).getD v) := by
  cases h : s.env m <;> simp [step, PP.live, hs, h]

/-- A header whose only lines on `m` are one top-level guard block at line
index `k` leaves `m` as it was when defined, and defines it to `v` otherwise. -/
theorem exec_guard_block (ls : List Line) (k : Nat) (m v : String)
    (hpre : ∀ l ∈ ls.take k, l.touches m = false) (hdepth : depth 0 (ls.take k) = 0)
    (hblock : (ls.drop k).take 3 = [.ifndef m, .define m v, .endif])
    (hpost : ∀ l ∈ (ls.drop k).drop 3, l.touches m = false) (env : Env) :
    exec ls env m = some ((env m).getD v) := by
  have hsplit : ls = ls.take k ++ ([.ifndef m, .define m v, .endif] ++ (ls.drop k).drop 3) := by
    rw [← hblock, List.take_append_drop, List.take_append_drop]
  have hconds : ((ls.take k).foldl step ⟨env, []⟩).conds = [] := by
    apply List.eq_nil_of_length_eq_zero
    rw [foldl_depth]
    exact hdepth
  unfold exec
  rw [hsplit, List.foldl_append, List.foldl_append, foldl_untouched _ m hpost,
    guard_block _ hconds, foldl_untouched _ m hpre]

/-- Each guarded macro of `config.h` keeps its prior replacement text, or gets `1`. -/
theorem included_guarded (env : Env) (m : String) (hm : m ∈ guardedMacros) :
    included env m = some ((env m).getD "1") := by
  unfold included
  simp only [guardedMacros, List.mem_cons, List.mem_singleton, List.not_mem_nil, or_false] at hm
  rcases hm with rfl | rfl | rfl | rfl | rfl | rfl
  · exact exec_guard_block _ 89 _ _ (by decide!) (by decide!) (by decide!) (by decide!) env
  · exact exec_guard_block _ 93 _ _ (by decide!) (by decide!) (by decide!) (by decide!) env
  · exact exec_guard_block _ 97 _ _ (by decide!) (by decide!) (by decide!) (by decide!) env
  · exact exec_guard_block _ 101 _ _ (by decide!) (by decide!) (by decide!) (by decide!) env
  · exact exec_guard_block _ 105 _ _ (by decide!) (by decide!) (by decide!) (by decide!) env
  · exact exec_guard_block _ 114 _ _ (by decide!) (by decide!) (by decide!) (by decide!) env

/-- The `PACKAGE...` entries are exactly entries 19 to 25 of the record. -/
theorem holdsAt_isPackageMeta (i : Nat) :
    holdsAt isPackageMeta record i = true ↔ 19 ≤ i ∧ i ≤ 25 := by
  by_cases hi : i < 39
  · have h : ∀ j < 39, holdsAt isPackageMeta record j = decide (19 ≤ j ∧ j ≤ 25) := by
      decide!
    rw [h i hi, decide_eq_true_iff]
  · have hnone : record[i]? = none :=
      List.getElem?_eq_none (by rw [record_length]; omega)
    simp only [holdsAt, hnone]
    constructor
    · intro h
      exact absurd h (by decide)
    · intro h
      omega

/-! ## The record -/

/-- C1: the example scenario holds of the emitted record. `HAVE_BYTESWAP_H`
is absent: the only line that mentions it is the commented-out marker
`/* #undef HAVE_BYTESWAP_H */`, which is its only entry (line 5), and
including the header leaves it undefined. The header contains the lines `#define HAVE_DLFCN_H 1` and
`#define HAVE_DECL_BSWAP_16 0`, which are active definitions: after inclusion
`HAVE_DLFCN_H` is `1` and `HAVE_DECL_BSWAP_16` is `0`. -/
theorem example_scenario :
    linesMentioning "HAVE_BYTESWAP_H" = ["/* #undef HAVE_BYTESWAP_H */"] ∧
    located.filter (fun p => p.2.name = "HAVE_BYTESWAP_H") = [(5, .absent "HAVE_BYTESWAP_H")] ∧
    included emptyEnv "HAVE_BYTESWAP_H" = none ∧
    "#define HAVE_DLFCN_H 1" ∈ config_h ∧
    "#define HAVE_DECL_BSWAP_16 0" ∈ config_h ∧
    (20, Entry.define "HAVE_DLFCN_H" "1") ∈ located ∧
    (9, Entry.define "HAVE_DECL_BSWAP_16" "0") ∈ located ∧
    included emptyEnv "HAVE_DLFCN_H" = some "1" ∧
    included emptyEnv "HAVE_DECL_BSWAP_16" = some "0" := by
  decide!

/-- C2: presence-style emission. Every entry whose name starts with `HAVE_`
but not with `HAVE_DECL_` is either the active definition `#define NAME 1` or
the commented-out marker `/* #undef NAME */`, and the record never gives such
a name the replacement text `0`. -/
theorem presence_convention (e : Entry) (he : e ∈ record) (hp : isPresence e.name = true) :
    (e = .define e.name "1" ∨ e = .absent e.name) ∧ bodyOf e.name record ≠ some "0" := by
  have h : ∀ x ∈ record, isPresence x.name = true →
      (x = .define x.name "1" ∨ x = .absent x.name) ∧ bodyOf x.name record ≠ some "0" := by
    decide!
  exact h e he hp

/-- Both presence forms occur: `HAVE_MMAP` is present, `HAVE_ENDIAN_H` absent. -/
theorem presence_convention_witness :
    (Entry.define "HAVE_MMAP" "1" ∈ record ∧ isPresence "HAVE_MMAP" = true ∧
      bodyOf "HAVE_MMAP" record ≠ some "0") ∧
    (Entry.absent "HAVE_ENDIAN_H" ∈ record ∧ isPresence "HAVE_ENDIAN_H" = true ∧
      bodyOf "HAVE_ENDIAN_H" record ≠ some "0") :=
  ⟨⟨by decide!, by decide!,
      (presence_convention (.define "HAVE_MMAP" "1") (by decide!) (by decide!)).2⟩,
   ⟨by decide!, by decide!,
      (presence_convention (.absent "HAVE_ENDIAN_H") (by decide!) (by decide!)).2⟩⟩

/-- C3: declaration-kind emission. Every entry whose name starts with
`HAVE_DECL_` is an active `#define` whose replacement text is the literal `0`
or the literal `1`, none of them is a commented-out `#undef` marker, and the
declaration entries of the record are the three `bswap` declarations, each
emitted as `#define HAVE_DECL_BSWAP_n 0`. -/
theorem declaration_convention :
    (∀ e ∈ record, isDecl e.name = true →
      (e = .define e.name "0" ∨ e = .define e.name "1") ∧ e ≠ .absent e.name) ∧
    record.filter (fun e => isDecl e.name) =
      [.define "HAVE_DECL_BSWAP_16" "0", .define "HAVE_DECL_BSWAP_32" "0",
       .define "HAVE_DECL_BSWAP_64" "0"] := by
  decide!

/-- The declaration convention at the entry of line 9. -/
theorem declaration_convention_witness :
    Entry.define "HAVE_DECL_BSWAP_16" "0" ∈ record ∧ isDecl "HAVE_DECL_BSWAP_16" = true ∧
    Entry.define "HAVE_DECL_BSWAP_16" "0" ≠ .absent "HAVE_DECL_BSWAP_16" :=
  ⟨by decide!, by decide!,
    (declaration_convention.1 (.define "HAVE_DECL_BSWAP_16" "0") (by decide!) (by decide!)).2⟩

/-- C5: uniqueness. Every name that occurs in the header as an active
`#define`, a guarded `#define` or a commented-out `#undef` marker has exactly
one entry in the record and exactly one line of the header that emits it; so
no name is both defined and marked undefined, and none is emitted twice. -/
theorem entries_unique (n : String) (hn : n ∈ names) :
    (record.filter (fun e => e.name = n)).length = 1 ∧
      ((scan false config_h).filter (fun l => l.emits = some n)).length = 1 := by
  have h : ∀ x ∈ names, (record.filter (fun e => e.name = x)).length = 1 ∧
      ((scan false config_h).filter (fun l => l.emits = some x)).length = 1 := by
    decide!
  exact h n hn

/-- Uniqueness at `HAVE_BYTESWAP_H`, with the list of names free of repetition. -/
theorem entries_unique_witness :
    "HAVE_BYTESWAP_H" ∈ names ∧ names.Nodup ∧ names.length = 39 ∧
    (record.filter (fun e => e.name = "HAVE_BYTESWAP_H")).length = 1 :=
  ⟨by decide!, by decide!, by decide!, (entries_unique "HAVE_BYTESWAP_H" (by decide!)).1⟩

/-- C6 as stated fails: the eight metadata entries are not consecutive.
`PACKAGE_VERSION` is entry 25 and `VERSION` is entry 32 of the record, and
entry 26 between them is `STDC_HEADERS`, which is no metadata entry. -/
theorem metadata_not_one_block :
    names[25]? = some "PACKAGE_VERSION" ∧ names[26]? = some "STDC_HEADERS" ∧
    names[32]? = some "VERSION" ∧
    holdsAt isMetadata record 25 = true ∧ holdsAt isMetadata record 32 = true ∧
    holdsAt isMetadata record 26 = false ∧
    ¬ (consecutive isMetadata record ∧
        ∀ e ∈ record, isMetadata e = true → isStringDefine e = true) := by
  refine ⟨by decide!, by decide!, by decide!, by decide!, by decide!, by decide!, ?_⟩
  rintro ⟨h, -⟩
  have h26 : holdsAt isMetadata record 26 = true :=
    h 25 26 32 (by decide) (by decide) (by decide!) (by decide!)
  revert h26
  decide!

/-- C6, amended: the seven entries `PACKAGE`, `PACKAGE_BUGREPORT`,
`PACKAGE_NAME`, `PACKAGE_STRING`, `PACKAGE_TARNAME`, `PACKAGE_URL` and
`PACKAGE_VERSION` are consecutive entries of the header (entries 19 to 25),
with no other entry between any two of them; `VERSION` is a later entry,
separated from `PACKAGE_VERSION` by `STDC_HEADERS` and the five
system-extension entries; these eight are all the metadata entries, and each
is of the string form `#define NAME "value"`. -/
theorem metadata_layout :
    consecutive isPackageMeta record ∧
    (names.drop 19).take 7 =
      ["PACKAGE", "PACKAGE_BUGREPORT", "PACKAGE_NAME", "PACKAGE_STRING", "PACKAGE_TARNAME",
       "PACKAGE_URL", "PACKAGE_VERSION"] ∧
    (names.drop 26).take 7 = "STDC_HEADERS" :: sysExtNames ++ ["VERSION"] ∧
    (record.filter isMetadata).map Entry.name = metadataNames ∧
    (∀ e ∈ record, isMetadata e = true → isStringDefine e = true) := by
  refine ⟨?_, by decide!, by decide!, by decide!, by decide!⟩
  intro i j k hij hjk hi hk
  rw [holdsAt_isPackageMeta] at hi hk ⊢
  omega

/-- The string form at the entry of `VERSION`, line 112. -/
theorem metadata_layout_witness :
    Entry.define "VERSION" "\"BFD_VERSION\"" ∈ record ∧
    isStringDefine (.define "VERSION" "\"BFD_VERSION\"") = true :=
  ⟨by decide!, metadata_layout.2.2.2.2 _ (by decide!) (by decide!)⟩

/-! ## Inclusion -/

/-- C8: the guarded system-extension defines never clobber the includer's
setting. From every macro environment, after the header is included each of
`_ALL_SOURCE`, `_GNU_SOURCE`, `_POSIX_PTHREAD_SEMANTICS`, `_TANDEM_SOURCE`,
`__EXTENSIONS__` and `_DARWIN_USE_64_BIT_INODE` is defined, to its prior
replacement text when it had one and to `1` otherwise; every macro defined
before is defined after; and no line of the header is an active `#undef`. -/
theorem guarded_defines_keep_setting (env : Env) :
    (∀ m ∈ guardedMacros, included env m = some ((env m).getD "1")) ∧
    (∀ m, env m ≠ none → included env m ≠ none) ∧
    (∀ l ∈ scan false config_h, l.isUndef = false) := by
  refine ⟨fun m hm => included_guarded env m hm, fun m hm => ?_, by decide!⟩
  exact foldl_defined _ (by decide!) m ⟨env, []⟩ hm

/-- With `_GNU_SOURCE` set to `700` by the includer, it is still `700` after
inclusion, while `_ALL_SOURCE`, which was not set, becomes `1`. -/
theorem guarded_defines_keep_setting_witness :
    gnuEnv "_GNU_SOURCE" = some "700" ∧ included gnuEnv "_GNU_SOURCE" = some "700" ∧
    gnuEnv "_ALL_SOURCE" = none ∧ included gnuEnv "_ALL_SOURCE" = some "1" ∧
    included gnuEnv "_GNU_SOURCE" ≠ none :=
  ⟨by decide!,
   ((guarded_defines_keep_setting gnuEnv).1 "_GNU_SOURCE" (by decide!)).trans (by decide!),
   by decide!,
   ((guarded_defines_keep_setting gnuEnv).1 "_ALL_SOURCE" (by decide!)).trans (by decide!),
   (guarded_defines_keep_setting gnuEnv).2.1 "_GNU_SOURCE" (by decide!)⟩

/-! ## Order and metadata -/

/-- C9: entry order is the byte-wise ascending order of names. Leaving out
the entries of lines 89 to 108, the names in file order are strictly
increasing byte-wise (any earlier name sorts before any later one), with
`HAVE_STRINGS_H` before `HAVE_STRING_H` and `VERSION` before
`_DARWIN_USE_64_BIT_INODE`. The entries of lines 89 to 108 are `_ALL_SOURCE`,
`_GNU_SOURCE`, `_POSIX_PTHREAD_SEMANTICS`, `_TANDEM_SOURCE`, `__EXTENSIONS__`,
strictly increasing too, and they stand in the record as one block right
after `STDC_HEADERS` and right before `VERSION`. -/
theorem entry_order :
    ((located.filter (fun p => !inSysExtBlock p.1)).map (fun p => p.2.name)).Pairwise nameLt ∧
    ((located.filter (fun p => !inSysExtBlock p.1)).map (fun p => p.2.name)).length = 34 ∧
    nameLt "HAVE_STRINGS_H" "HAVE_STRING_H" ∧
    nameLt "VERSION" "_DARWIN_USE_64_BIT_INODE" ∧
    (located.filter (fun p => inSysExtBlock p.1)).map (fun p => p.2.name) = sysExtNames ∧
    sysExtNames.Pairwise nameLt ∧
    names = names.take 26 ++ ("STDC_HEADERS" :: sysExtNames ++ "VERSION" :: names.drop 33) := by
  decide!

/-- C10: the package metadata values are mutually consistent. There are a
name, a version and a tarname such that `PACKAGE_NAME`, `PACKAGE_VERSION` and
`PACKAGE_TARNAME` are defined to them, `PACKAGE_STRING` is the name, one
space, the version, `VERSION` is the version and `PACKAGE` is the tarname. -/
theorem metadata_consistent :
    ∃ name version tarname : String,
      stringOf "PACKAGE_NAME" = some name ∧
      stringOf "PACKAGE_VERSION" = some version ∧
      stringOf "PACKAGE_TARNAME" = some tarname ∧
      stringOf "PACKAGE_STRING" = some (name ++ " " ++ version) ∧
      stringOf "VERSION" = some version ∧
      stringOf "PACKAGE" = some tarname :=
  ⟨"libsframe", "BFD_VERSION", "libsframe", by decide!, by decide!, by decide!, by decide!,
    by decide!, by decide!⟩

end ConfigH
